import Mathlib

/-!
Verification of the lychee log parser (src/lychee_log_parser.py): a shallow
embedding of the CLI error-code resolution, the per-entry failure classifier,
the suggestion cross-referencer, the summary rendering and the exit-code
logic, followed by theorems settling the specification claims.

Modelling conventions:
* Python dicts read from JSON are embedded as association lists, preserving
  iteration order; `json.load` is not modelled (documents arrive parsed).
* `json_log["suggestion_map"]` can raise `KeyError` when the key is absent, so
  `LogDoc.suggestion_map` is an `Option`; `none` models the absent key and the
  analyser reports the crash through `Except`.  An uncaught Python exception
  makes the interpreter exit with status 1, which `processExitCode` encodes.
* Console logging and terminal colors are not modelled; the summary file
  `github_job_summary.md` is modelled as the list of strings the program
  writes (`RunResult.summary = none` means no file was written at all).
-/

namespace Lychee

/-- Substring helpers over `List Char`, written structurally so the kernel can
evaluate them.  `startsWithL pat s` is true when `pat` is a prefix of `s`. -/
def startsWithL : List Char → List Char → Bool
  | [], _ => true
  | _ :: _, [] => false
  | a :: as, b :: bs => a == b && startsWithL as bs

/-- `containsSubL pat s` models Python `pat in s` for nonempty `pat`. -/
def containsSubL (pat : List Char) : List Char → Bool
  | [] => startsWithL pat []
  | c :: cs => startsWithL pat (c :: cs) || containsSubL pat cs

/-- Python's `sub in s` on strings. -/
def containsSub (sub s : String) : Bool :=
  containsSubL sub.data s.data

/-- Python `s.split("..")`: splits on every non-overlapping occurrence of the
two-character separator `..`, scanning left to right; always returns at least
one part. -/
def splitOnDD : List Char → List (List Char)
  | [] => [[]]
  | '.' :: '.' :: rest => [] :: splitOnDD rest
  | c :: rest =>
    match splitOnDD rest with
    | [] => [[c]]
    | p :: ps => (c :: p) :: ps

/-- Digit accumulator for `pyInt`. -/
def parseDigitsAux : Nat → List Char → Option Nat
  | acc, [] => some acc
  | acc, c :: cs =>
    if c.isDigit then parseDigitsAux (10 * acc + (c.toNat - 48)) cs else none

/-- Nonempty all-digit parse. -/
def parseNatL : List Char → Option Nat
  | [] => none
  | cs => parseDigitsAux 0 cs

/-- Python `int(s)` restricted to an optional sign followed by digits (the
forms the CLI contract uses); any other string raises `ValueError`, i.e.
`none`. -/
def pyInt : List Char → Option Int
  | '-' :: rest => (parseNatL rest).map fun n => -(n : Int)
  | '+' :: rest => (parseNatL rest).map fun n => (n : Int)
  | cs => (parseNatL cs).map fun n => (n : Int)

/-- Python `range(a, b + 1)` as a list of integers, empty when `a > b`. -/
def pyRangeIncl (a b : Int) : List Int :=
  (List.range (b + 1 - a).toNat).map fun (i : Nat) => (a + i : Int)

/-- One `error_codes` CLI token (lines 34-49 of the source): a token
containing `..` is split and both boundaries parsed as integers giving
`range(start, end + 1)`; otherwise the token itself is parsed as one integer.
`.error ()` models the `ValueError` handler that prints help and exits 2.
`splitOnDD` never returns `[]`, so the catch-all covers only three or more
parts (the `start, end = ...` unpack failure). -/
def parseToken (tok : String) : Except Unit (List Int) :=
  match splitOnDD tok.data with
  | [single] =>
    match pyInt single with
    | some n => .ok [n]
    | none => .error ()
  | [s, e] =>
    match pyInt s, pyInt e with
    | some a, some b => .ok (pyRangeIncl a b)
    | _, _ => .error ()
  | _ => .error ()

/-- Lines 50-52: each new code is appended only when not already present. -/
def insertNew (acc : List Int) (new : List Int) : List Int :=
  new.foldl (fun a c => if a.contains c then a else a ++ [c]) acc

/-- Folds all tokens into the deduplicated error-code list. -/
def resolveErrorCodesAux : List String → List Int → Except Unit (List Int)
  | [], acc => .ok acc
  | tok :: toks, acc =>
    match parseToken tok with
    | .error e => .error e
    | .ok new => resolveErrorCodesAux toks (insertNew acc new)

/-- The resolved ErrorCodeSet (`self._error_codes`), or `.error ()` when a
token is invalid (program exits 2). -/
def resolveErrorCodes (tokens : List String) : Except Unit (List Int) :=
  resolveErrorCodesAux tokens []

/-- The classification-relevant CLI flags (`-t`, `-n`). -/
structure Flags where
  ignore_timeouts : Bool
  ignore_nocode_net_err : Bool
deriving DecidableEq

/-- `error["status"]`: `text` is always present, `code` and the extra detail
string are optional (the `except KeyError` handlers set them to `None`). -/
structure Status where
  text : String
  code : Option Int
  extra : Option String
deriving DecidableEq

/-- One element of a `fail_map` value list. -/
structure FailureEntry where
  url : String
  status : Status
deriving DecidableEq

/-- One element of a `suggestion_map` value list. -/
structure SuggestionEntry where
  original : String
  suggestion : String
deriving DecidableEq

/-- The loaded JSON log.  `suggestion_map = none` models the key being absent
from the document (accessing it raises `KeyError`). -/
structure LogDoc where
  fail_map : List (String × List FailureEntry)
  suggestion_map : Option (List (String × List SuggestionEntry))

/-- The second component of the tuple stored per broken link: the numeric
status code (rule 2), Python `None` (rule 5), or the detail string (rule 6). -/
inductive Detail where
  | fromCode (c : Int)
  | noDetail
  | fromDetails (d : String)
deriving DecidableEq

/-- A ClassifiedFailure: `{faulty_link: (status_info, detail)}`. -/
structure Classified where
  url : String
  text : String
  detail : Detail
deriving DecidableEq

/-- The truthiness test of line 174, `status_code and status_code in
self._error_codes`: `None` and `0` are both falsy in Python. -/
def codeTruthyMatch (error_codes : List Int) : Option Int → Bool
  | some c => c != 0 && error_codes.contains c
  | none => false

/-- Rules 3-6 (lines 181-196): Cached discard, codeless network-error discard,
then broken with no detail when `status_details` is falsy (`None` or `""`),
else broken with the detail string. -/
def classifyNoCode (flags : Flags) (e : FailureEntry) : Option Classified :=
  if containsSub "Cached" e.status.text then none
  else if containsSub "Network error" e.status.text && flags.ignore_nocode_net_err then
    none
  else
    match e.status.extra with
    | none => some ⟨e.url, e.status.text, .noDetail⟩
    | some d =>
      if d == "" then some ⟨e.url, e.status.text, .noDetail⟩
      else some ⟨e.url, e.status.text, .fromDetails d⟩

/-- Rule 2 (lines 174-179) followed by rules 3-6: a present, truthy status
code in the error-code list is broken with the code as detail; code `0` is
falsy and falls through exactly like an absent code. -/
def classifyTail (flags : Flags) (error_codes : List Int) (e : FailureEntry) :
    Option Classified :=
  match e.status.code with
  | some c =>
    if c != 0 && error_codes.contains c then
      some ⟨e.url, e.status.text, .fromCode c⟩
    else classifyNoCode flags e
  | none => classifyNoCode flags e

/-- The whole per-entry classifier (lines 159-196).  Rule 1 (lines 171-172):
an exact `"Timeout"` text with the ignore-timeouts flag is discarded before
anything else; `none` means the entry is skipped. -/
def classify (flags : Flags) (error_codes : List Int) (e : FailureEntry) :
    Option Classified :=
  if e.status.text == "Timeout" && flags.ignore_timeouts then none
  else classifyTail flags error_codes e

/-- The surviving classified failures of one file, in input order. -/
def classifyEntries (flags : Flags) (error_codes : List Int)
    (entries : List FailureEntry) : List Classified :=
  entries.filterMap (classify flags error_codes)

/-- `broken_files` (lines 156-199): a file is kept exactly when at least one
of its entries survives classification. -/
def brokenFiles (flags : Flags) (error_codes : List Int)
    (fm : List (String × List FailureEntry)) : List (String × List Classified) :=
  (fm.map fun p => (p.1, classifyEntries flags error_codes p.2)).filter
    fun p => !p.2.isEmpty

/-- `broken_urls`: every surviving entry's URL, accumulated across all files
in iteration order. -/
def brokenUrls (flags : Flags) (error_codes : List Int)
    (fm : List (String × List FailureEntry)) : List String :=
  (fm.flatMap fun p => classifyEntries flags error_codes p.2).map Classified.url

/-- `suggestions_for_files` (lines 235-243): per file, keep the suggestions
whose `original` is among the broken URLs; drop files with no survivor. -/
def suggestionsForFiles (broken_urls : List String)
    (sm : List (String × List SuggestionEntry)) :
    List (String × List (String × String)) :=
  (sm.map fun p =>
      (p.1,
        (p.2.filter fun s => broken_urls.contains s.original).map
          fun s => (s.original, s.suggestion))).filter
    fun p => !p.2.isEmpty

/-- Line 203: the success banner, the only line of the success summary. -/
def successSummary : List String :=
  ["# :heavy_check_mark: No links broken."]

/-- Lines 213-221: the per-file section of the failure summary. -/
def fileSection (file : String) (links : List Classified) : List String :=
  ["\n---\n\n", "## Broken links in \"" ++ file ++ "\"\n\n"] ++
    links.map fun c => "Broken link: **<" ++ c.url ++ ">**\n"

/-- Lines 208-227: the failure summary before any suggestions section. -/
def failureReportLines (bf : List (String × List Classified)) : List String :=
  ["# :x:  Broken links found!\n"] ++ (bf.flatMap fun p => fileSection p.1 p.2) ++
    ["\n---\n"]

/-- Lines 251-255 (with `\x27` for the apostrophe in the source text). -/
def suggestionDescription : String :=
  "Check if broken URL server is expired. If it\x27s no longer available, you can fix broken links using the suggestions below:"

/-- Lines 250-272: the suggestions section appended to the summary. -/
def suggestionSection (sf : List (String × List (String × String))) :
    List String :=
  ["\n## :bulb: Fix Suggestions\n\n", suggestionDescription ++ "\n", "\n---\n"] ++
    sf.flatMap fun p =>
      ["\n## Suggestions for the \"" ++ p.1 ++ "\"\n\n"] ++
        p.2.map (fun s => s.1 ++ " - " ++ s.2 ++ "\n") ++ ["\n---\n"]

/-- The one modelled crash: a missing dict key (`KeyError`). -/
inductive Crash where
  | keyError
deriving DecidableEq

/-- Outcome of a completed run: the summary-file content (`none` = no file
written) and the `exit()` status. -/
structure RunResult where
  summary : Option (List String)
  exitCode : Nat
deriving DecidableEq

/-- `lychee_log_analyser` (lines 127-276) on an already-loaded document. -/
def lychee_log_analyser (flags : Flags) (error_codes : List Int)
    (doc : LogDoc) : Except Crash RunResult :=
  if doc.fail_map.isEmpty then .ok ⟨none, 0⟩
  else if (brokenFiles flags error_codes doc.fail_map).isEmpty then
    .ok ⟨some successSummary, 0⟩
  else
    match doc.suggestion_map with
    | none => .error .keyError
    | some sm =>
      if sm.isEmpty then
        .ok ⟨some (failureReportLines (brokenFiles flags error_codes doc.fail_map)), 1⟩
      else if (suggestionsForFiles (brokenUrls flags error_codes doc.fail_map)
          sm).isEmpty then
        .ok ⟨some (failureReportLines (brokenFiles flags error_codes doc.fail_map)), 1⟩
      else
        .ok ⟨some (failureReportLines (brokenFiles flags error_codes doc.fail_map) ++
          suggestionSection (suggestionsForFiles
            (brokenUrls flags error_codes doc.fail_map) sm)), 1⟩

/-- The whole program: argument resolution (exit 2 on a bad token), the log
path existence check (exit 2), then the analyser. -/
def runProgram (tokens : List String) (flags : Flags) (logExists : Bool)
    (doc : LogDoc) : Except Crash RunResult :=
  match resolveErrorCodes tokens with
  | .error _ => .ok ⟨none, 2⟩
  | .ok codes =>
    if logExists then lychee_log_analyser flags codes doc
    else .ok ⟨none, 2⟩

/-- The operating-system exit status of the process: the `exit()` argument on
a completed run, and 1 for an uncaught Python exception. -/
def processExitCode : Except Crash RunResult → Nat
  | .error _ => 1
  | .ok r => r.exitCode

/-! Helper lemmas shared by several claim theorems. -/

/-- `classifyNoCode` never reports a numeric code as the detail: rules 3-6 do
not look at `status.code`. -/
lemma classifyNoCode_ne_fromCode (flags : Flags) (e : FailureEntry)
    (u t : String) (c : Int) :
    classifyNoCode flags e ≠ some ⟨u, t, Detail.fromCode c⟩ := by
  unfold classifyNoCode
  by_cases h1 : containsSub "Cached" e.status.text
  · simp [h1]
  · by_cases h2 :
        containsSub "Network error" e.status.text && flags.ignore_nocode_net_err
    · simp [h1, h2]
    · cases hx : e.status.extra with
      | none => simp [h1, h2, hx]
      | some d =>
        by_cases hd : d == ""
        · simp [h1, h2, hx, hd]
        · simp [h1, h2, hx, hd]

/-- `classifyNoCode` always produces an answer for a `"Timeout"` text: the
`Cached` and `Network error` substring tests both fail on it. -/
lemma classifyNoCode_timeout_ne_none (flags : Flags) (e : FailureEntry)
    (h : e.status.text = "Timeout") : classifyNoCode flags e ≠ none := by
  unfold classifyNoCode
  rw [h]
  rw [show containsSub "Cached" "Timeout" = false from by decide,
      show containsSub "Network error" "Timeout" = false from by decide]
  cases hx : e.status.extra with
  | none => simp
  | some d =>
    by_cases hd : d == "" <;> simp [hd]

/-- Rules 2-6 always produce an answer for a `"Timeout"` text. -/
lemma classifyTail_timeout_ne_none (flags : Flags) (codes : List Int)
    (e : FailureEntry) (h : e.status.text = "Timeout") :
    classifyTail flags codes e ≠ none := by
  cases hc : e.status.code with
  | none =>
    have hstep : classifyTail flags codes e = classifyNoCode flags e := by
      unfold classifyTail; rw [hc]
    rw [hstep]
    exact classifyNoCode_timeout_ne_none flags e h
  | some c =>
    have hstep : classifyTail flags codes e =
        if (c != 0 && codes.contains c) = true then
          some ⟨e.url, e.status.text, Detail.fromCode c⟩
        else classifyNoCode flags e := by
      unfold classifyTail; rw [hc]
    rw [hstep]
    cases hm : (c != 0 && codes.contains c) with
    | true => simp
    | false =>
      rw [if_neg (by simp)]
      exact classifyNoCode_timeout_ne_none flags e h

/-- C8: a FailureEntry whose status text is exactly `"Timeout"` is discarded
iff the ignore-timeouts flag is set; with the flag unset it is handed to the
remaining rules 2-6 (`classifyTail`) unchanged. -/
theorem classify_timeout_rule (flags : Flags) (codes : List Int)
    (e : FailureEntry) (h : e.status.text = "Timeout") :
    (classify flags codes e = none ↔ flags.ignore_timeouts = true) ∧
    (flags.ignore_timeouts = false →
      classify flags codes e = classifyTail flags codes e) := by
  have hbeq : (e.status.text == "Timeout") = true := by
    rw [h]; exact beq_self_eq_true "Timeout"
  unfold classify
  rw [hbeq, Bool.true_and]
  cases hflag : flags.ignore_timeouts with
  | true =>
    refine ⟨by simp, fun hc => ?_⟩
    exact absurd hc (by simp)
  | false =>
    rw [if_neg (by simp)]
    constructor
    · constructor
      · intro hnone
        exact absurd hnone (classifyTail_timeout_ne_none flags codes e h)
      · intro hc
        exact absurd hc (by simp)
    · intro _
      rfl

/-- C8 instance: with the flag set, a `"Timeout"` entry is discarded. -/
theorem classify_timeout_rule_inst :
    classify ⟨true, false⟩ [] ⟨"u", ⟨"Timeout", none, none⟩⟩ = none :=
  (classify_timeout_rule ⟨true, false⟩ [] ⟨"u", ⟨"Timeout", none, none⟩⟩
    rfl).1.mpr rfl

/-- C9: a present status code equal to `0` is falsy in the Python membership
test of rule 2, so the entry is classified exactly as if the code were
absent, and its detail is never a numeric code. -/
theorem classify_zero_code_falls_through (flags : Flags) (codes : List Int)
    (e : FailureEntry) (h : e.status.code = some 0) :
    classify flags codes e =
      classify flags codes ⟨e.url, ⟨e.status.text, none, e.status.extra⟩⟩ ∧
    ∀ u t c, classify flags codes e ≠ some ⟨u, t, Detail.fromCode c⟩ := by
  constructor
  · have hsame : classifyNoCode flags e =
        classifyNoCode flags ⟨e.url, ⟨e.status.text, none, e.status.extra⟩⟩ :=
      rfl
    unfold classify classifyTail
    rw [h]
    simp [hsame]
  · intro u t c
    unfold classify
    by_cases ht : (e.status.text == "Timeout" && flags.ignore_timeouts) = true
    · simp [ht]
    · simp only [Bool.not_eq_true] at ht
      simp only [ht, if_false]
      unfold classifyTail
      rw [h]
      simp only [bne_self_eq_false, Bool.false_and, if_false]
      exact classifyNoCode_ne_fromCode flags e u t c

/-- C9 instance: with `0` in the error-code set, an entry carrying code `0`
classifies exactly like the same entry with no code at all. -/
theorem classify_zero_code_falls_through_inst :
    classify ⟨false, false⟩ [0] ⟨"u", ⟨"t", some 0, none⟩⟩ =
      classify ⟨false, false⟩ [0] ⟨"u", ⟨"t", none, none⟩⟩ :=
  (classify_zero_code_falls_through ⟨false, false⟩ [0]
    ⟨"u", ⟨"t", some 0, none⟩⟩ rfl).1

/-- C10: a range token whose boundaries both parse but satisfy `start > end`
resolves without error and contributes no codes: `range(start, end + 1)` is
empty, so the token is a no-op in the fold. -/
theorem descending_range_contributes_nothing (tok : String)
    (sd ed : List Char) (a b : Int) (h1 : splitOnDD tok.data = [sd, ed])
    (h2 : pyInt sd = some a) (h3 : pyInt ed = some b) (h4 : a > b) :
    parseToken tok = .ok [] ∧
    ∀ toks acc, resolveErrorCodesAux (tok :: toks) acc =
      resolveErrorCodesAux toks acc := by
  have hr : pyRangeIncl a b = [] := by
    unfold pyRangeIncl
    rw [show (b + 1 - a).toNat = 0 from by omega]
    rfl
  have hp : parseToken tok = .ok [] := by
    unfold parseToken
    simp only [h1, h2, h3, hr]
  refine ⟨hp, fun toks acc => ?_⟩
  show (match parseToken tok with
    | .error e => .error e
    | .ok new => resolveErrorCodesAux toks (insertNew acc new)) =
      resolveErrorCodesAux toks acc
  rw [hp]
  rfl

/-- C10 instance: the token `"5..3"` parses to the empty contribution. -/
theorem descending_range_contributes_nothing_inst :
    parseToken "5..3" = .ok [] :=
  (descending_range_contributes_nothing "5..3" ['5'] ['3'] 5 3 rfl rfl rfl
    (by decide)).1

/-- C2 counterexample: with an empty `fail_map` the analyser exits 0 but
writes no summary file at all (the claimed success-banner file is absent). -/
theorem analyser_empty_fail_map_writes_nothing :
    lychee_log_analyser ⟨false, false⟩ [] ⟨[], some []⟩ = .ok ⟨none, 0⟩ ∧
    (none : Option (List String)) ≠ some successSummary := by
  exact ⟨rfl, by simp⟩

/-- C2 amended: a run whose document has an empty `fail_map` exits with
status 0 and writes no summary document. -/
theorem analyser_empty_fail_map_exit_zero (flags : Flags) (codes : List Int)
    (sm : Option (List (String × List SuggestionEntry))) :
    lychee_log_analyser flags codes ⟨[], sm⟩ = .ok ⟨none, 0⟩ := rfl


/-- C3 counterexample: `0` can be put in the ErrorCodeSet, yet an entry whose
`status.code` is `0` is falsy in rule 2 and gets discarded by the `Cached`
rule instead of being reported broken. -/
theorem classify_zero_code_in_set_discarded :
    (⟨"http://x", ⟨"Cached: ok", some 0, none⟩⟩ : FailureEntry).status.code =
      some 0 ∧
    (0 : Int) ∈ [(0 : Int)] ∧
    containsSub "Cached" "Cached: ok" = true ∧
    classify ⟨false, false⟩ [0] ⟨"http://x", ⟨"Cached: ok", some 0, none⟩⟩ =
      none := by
  exact ⟨rfl, by decide, by decide, rfl⟩

/-- C3 amended: a FailureEntry whose `status.code` is present, nonzero and in
the resolved ErrorCodeSet, and which is not discarded by the timeout rule, is
always classified broken with the numeric code as detail, even when its text
contains `"Cached"`.  (The amendment adds "nonzero" — Python truthiness makes
a `0` code fall through rule 2 — and excludes the timeout rule, which fires
first.) -/
theorem classify_code_match_broken (flags : Flags) (codes : List Int)
    (e : FailureEntry) (c : Int) (hc : e.status.code = some c) (h0 : c ≠ 0)
    (hmem : c ∈ codes)
    (hto : ¬(e.status.text = "Timeout" ∧ flags.ignore_timeouts = true)) :
    classify flags codes e = some ⟨e.url, e.status.text, Detail.fromCode c⟩ := by
  have hcond : (e.status.text == "Timeout" && flags.ignore_timeouts) = false := by
    cases ht : e.status.text == "Timeout" with
    | false => rw [Bool.false_and]
    | true =>
      cases hf : flags.ignore_timeouts with
      | false => rw [Bool.and_false]
      | true => exact absurd ⟨eq_of_beq ht, hf⟩ hto
  have hmatch : (c != 0 && codes.contains c) = true := by
    have h1 : (c != 0) = true := by simpa [bne_iff_ne] using h0
    have h2 : codes.contains c = true := List.elem_eq_true_of_mem hmem
    rw [h1, h2, Bool.and_self]
  have hstep : classifyTail flags codes e =
      if (c != 0 && codes.contains c) = true then
        some ⟨e.url, e.status.text, Detail.fromCode c⟩
      else classifyNoCode flags e := by
    unfold classifyTail; rw [hc]
  unfold classify
  rw [hcond]
  rw [if_neg (by simp)]
  rw [hstep, if_pos hmatch]

/-- C3 instance: a `404` in the set beats a `Cached` text. -/
theorem classify_code_match_broken_inst :
    classify ⟨false, false⟩ [404] ⟨"u", ⟨"Cached: x", some 404, none⟩⟩ =
      some ⟨"u", "Cached: x", Detail.fromCode 404⟩ :=
  classify_code_match_broken ⟨false, false⟩ [404]
    ⟨"u", ⟨"Cached: x", some 404, none⟩⟩ 404 rfl (by decide) (by decide)
    (by decide)

/-- C4 counterexample: an entry whose text contains both `"Cached"` and
`"Network error"` is discarded by the `Cached` rule although the
ignore-codeless-network-errors flag is unset and no code matched — the
claimed "iff" fails in the only-if direction. -/
theorem classify_network_error_cached_discarded :
    containsSub "Network error" "Cached Network error" = true ∧
    (⟨false, false⟩ : Flags).ignore_nocode_net_err = false ∧
    codeTruthyMatch [] (⟨"http://y", ⟨"Cached Network error", none, none⟩⟩ :
      FailureEntry).status.code = false ∧
    classify ⟨false, false⟩ []
      ⟨"http://y", ⟨"Cached Network error", none, none⟩⟩ = none := by
  exact ⟨by decide, rfl, rfl, rfl⟩

/-- C4 amended: an entry whose text contains `"Network error"` is discarded
iff its code fails the truthy membership test of rule 2 AND (its text also
contains `"Cached"` OR the ignore-codeless-network-errors flag is set).  (The
amendment adds the `Cached` disjunct: rule 3 fires before rule 4 and discards
regardless of the flag.) -/
theorem classify_network_error_discard_iff (flags : Flags) (codes : List Int)
    (e : FailureEntry)
    (hne : containsSub "Network error" e.status.text = true) :
    classify flags codes e = none ↔
      codeTruthyMatch codes e.status.code = false ∧
        (containsSub "Cached" e.status.text = true ∨
          flags.ignore_nocode_net_err = true) := by
  have htimeout : (e.status.text == "Timeout") = false := by
    cases ht : e.status.text == "Timeout" with
    | false => rfl
    | true =>
      rw [eq_of_beq ht] at hne
      exact absurd hne (by decide)
  have hclassify : classify flags codes e = classifyTail flags codes e := by
    unfold classify
    rw [htimeout, Bool.false_and]
    rw [if_neg (by simp)]
  rw [hclassify]
  cases hc : e.status.code with
  | some c =>
    have hstep : classifyTail flags codes e =
        if (c != 0 && codes.contains c) = true then
          some ⟨e.url, e.status.text, Detail.fromCode c⟩
        else classifyNoCode flags e := by
      unfold classifyTail; rw [hc]
    rw [hstep]
    simp only [codeTruthyMatch]
    cases hm : (c != 0 && codes.contains c) with
    | true => simp
    | false =>
      rw [if_neg (by simp)]
      unfold classifyNoCode
      by_cases hcached : containsSub "Cached" e.status.text = true
      · simp [hcached]
      · rw [Bool.not_eq_true] at hcached
        rw [hcached, if_neg (by simp), hne, Bool.true_and]
        cases hflag : flags.ignore_nocode_net_err with
        | true => simp
        | false =>
          rw [if_neg (by simp)]
          cases hx : e.status.extra with
          | none => simp
          | some d =>
            by_cases hd : d == "" <;> simp [hd]
  | none =>
    have hstep : classifyTail flags codes e = classifyNoCode flags e := by
      unfold classifyTail; rw [hc]
    rw [hstep]
    simp only [codeTruthyMatch]
    unfold classifyNoCode
    by_cases hcached : containsSub "Cached" e.status.text = true
    · simp [hcached]
    · rw [Bool.not_eq_true] at hcached
      rw [hcached, if_neg (by simp), hne, Bool.true_and]
      cases hflag : flags.ignore_nocode_net_err with
      | true => simp
      | false =>
        rw [if_neg (by simp)]
        cases hx : e.status.extra with
        | none => simp
        | some d =>
          by_cases hd : d == "" <;> simp [hd]

/-- C4 instance: a codeless network error is discarded when the flag is set. -/
theorem classify_network_error_discard_iff_inst :
    classify ⟨false, true⟩ [] ⟨"u", ⟨"Network error", none, none⟩⟩ = none :=
  (classify_network_error_discard_iff ⟨false, true⟩ []
      ⟨"u", ⟨"Network error", none, none⟩⟩ (by decide)).mpr
    ⟨rfl, Or.inr rfl⟩

/-- C1 counterexample: with broken links found and `suggestion_map` absent
from the document, the analyser raises `KeyError` at line 230 instead of
finalizing the report: no summary is written and no clean `exit(1)` happens. -/
theorem analyser_absent_suggestion_map_crashes :
    brokenFiles ⟨false, false⟩ [404]
      [("a.md", [⟨"http://x", ⟨"Not Found", some 404, none⟩⟩])] ≠ [] ∧
    lychee_log_analyser ⟨false, false⟩ [404]
      ⟨[("a.md", [⟨"http://x", ⟨"Not Found", some 404, none⟩⟩])], none⟩ =
      .error .keyError := by
  exact ⟨by decide, rfl⟩

/-- C1 amended: when BrokenFileReport is non-empty and `suggestion_map` is
present but empty, the analyser writes the failure summary with no
suggestions section (`failureReportLines` contains none by construction) and
exits with status 1.  (The amendment drops the "absent" case: an absent
`suggestion_map` key raises an uncaught `KeyError`, so no summary file is
written.) -/
theorem analyser_empty_suggestion_map_finalizes (flags : Flags)
    (codes : List Int) (doc : LogDoc) (hsm : doc.suggestion_map = some [])
    (hbf : brokenFiles flags codes doc.fail_map ≠ []) :
    lychee_log_analyser flags codes doc =
      .ok ⟨some (failureReportLines (brokenFiles flags codes doc.fail_map)),
        1⟩ := by
  have hfm : doc.fail_map.isEmpty = false := by
    cases hfm0 : doc.fail_map with
    | nil => exact absurd (by rw [hfm0]; rfl) hbf
    | cons a l => rfl
  have hbfe : (brokenFiles flags codes doc.fail_map).isEmpty = false :=
    List.isEmpty_eq_false.mpr hbf
  unfold lychee_log_analyser
  rw [hfm, if_neg (by simp), hbfe, if_neg (by simp), hsm]
  rfl

/-- C1 instance: one broken file, an empty suggestion map. -/
theorem analyser_empty_suggestion_map_finalizes_inst :
    lychee_log_analyser ⟨false, false⟩ [404]
      ⟨[("a.md", [⟨"http://x", ⟨"Not Found", some 404, none⟩⟩])], some []⟩ =
      .ok ⟨some (failureReportLines (brokenFiles ⟨false, false⟩ [404]
        [("a.md", [⟨"http://x", ⟨"Not Found", some 404, none⟩⟩])])), 1⟩ :=
  analyser_empty_suggestion_map_finalizes ⟨false, false⟩ [404]
    ⟨[("a.md", [⟨"http://x", ⟨"Not Found", some 404, none⟩⟩])], some []⟩ rfl
    (by decide)

/-- Membership in the inclusive integer range list. -/
lemma mem_pyRangeIncl (a b n : Int) : n ∈ pyRangeIncl a b ↔ a ≤ n ∧ n ≤ b := by
  unfold pyRangeIncl
  rw [List.mem_map]
  constructor
  · rintro ⟨i, hir, rfl⟩
    rw [List.mem_range] at hir
    omega
  · rintro ⟨h1, h2⟩
    refine ⟨(n - a).toNat, ?_, ?_⟩
    · rw [List.mem_range]
      omega
    · omega

/-- The dedup insertion of lines 50-52 preserves distinctness. -/
lemma insertNew_nodup (new : List Int) : ∀ acc : List Int, acc.Nodup →
    (insertNew acc new).Nodup := by
  induction new with
  | nil => intro acc h; exact h
  | cons c cs ih =>
    intro acc h
    have hstep : insertNew acc (c :: cs) =
        insertNew (if acc.contains c = true then acc else acc ++ [c]) cs := by
      unfold insertNew
      rw [List.foldl_cons]
    rw [hstep]
    by_cases hc : acc.contains c = true
    · rw [if_pos hc]; exact ih acc h
    · rw [if_neg hc]
      refine ih (acc ++ [c]) ?_
      refine List.Nodup.append h (List.nodup_singleton c) ?_
      intro x hx hxc
      rw [List.mem_singleton] at hxc
      subst hxc
      exact hc (List.elem_eq_true_of_mem hx)

/-- The token fold keeps the accumulated code list distinct. -/
lemma resolveErrorCodesAux_nodup : ∀ (tokens : List String)
    (acc codes : List Int), acc.Nodup →
    resolveErrorCodesAux tokens acc = .ok codes → codes.Nodup := by
  intro tokens
  induction tokens with
  | nil =>
    intro acc codes h heq
    cases heq
    exact h
  | cons tok toks ih =>
    intro acc codes h heq
    have hstep : resolveErrorCodesAux (tok :: toks) acc =
        match parseToken tok with
        | .error e => .error e
        | .ok new => resolveErrorCodesAux toks (insertNew acc new) := rfl
    rw [hstep] at heq
    cases hp : parseToken tok with
    | error e => rw [hp] at heq; cases heq
    | ok new =>
      rw [hp] at heq
      exact ih (insertNew acc new) codes (insertNew_nodup new acc h) heq

/-- C7: a valid range token `"a..b"` contributes exactly the integers of the
inclusive interval `[a, b]`; a valid single token contributes exactly its
integer; and the resolved ErrorCodeSet holds every integer at most once. -/
theorem error_code_token_semantics :
    (∀ (tok : String) (sd ed : List Char) (a b : Int),
        splitOnDD tok.data = [sd, ed] → pyInt sd = some a →
        pyInt ed = some b →
        parseToken tok = .ok (pyRangeIncl a b) ∧
          ∀ n : Int, n ∈ pyRangeIncl a b ↔ a ≤ n ∧ n ≤ b) ∧
    (∀ (tok : String) (d : List Char) (n : Int),
        splitOnDD tok.data = [d] → pyInt d = some n →
        parseToken tok = .ok [n]) ∧
    (∀ (tokens : List String) (codes : List Int),
        resolveErrorCodes tokens = .ok codes → codes.Nodup) := by
  refine ⟨?_, ?_, ?_⟩
  · intro tok sd ed a b h1 h2 h3
    refine ⟨?_, mem_pyRangeIncl a b⟩
    unfold parseToken
    simp only [h1, h2, h3]
  · intro tok d n h1 h2
    unfold parseToken
    simp only [h1, h2]
  · intro tokens codes heq
    exact resolveErrorCodesAux_nodup tokens [] codes List.nodup_nil heq

/-- C7 instance: `"400..404"` resolves to the five codes 400-404. -/
theorem error_code_token_semantics_inst :
    parseToken "400..404" = .ok (pyRangeIncl 400 404) ∧
    ((402 : Int) ∈ pyRangeIncl 400 404 ↔ (400 : Int) ≤ 402 ∧ (402 : Int) ≤ 404) :=
  ⟨(error_code_token_semantics.1 "400..404" ['4', '0', '0'] ['4', '0', '4']
      400 404 rfl rfl rfl).1,
    (error_code_token_semantics.1 "400..404" ['4', '0', '0'] ['4', '0', '4']
      400 404 rfl rfl rfl).2 402⟩

/-- Membership in `broken_files`: a `(file, links)` pair is reported exactly
when `links` is the non-empty classified list of one of the input files. -/
lemma mem_brokenFiles_iff (flags : Flags) (codes : List Int)
    (fm : List (String × List FailureEntry)) (f : String)
    (ls : List Classified) :
    (f, ls) ∈ brokenFiles flags codes fm ↔
      ls ≠ [] ∧ ∃ es, (f, es) ∈ fm ∧ ls = classifyEntries flags codes es := by
  unfold brokenFiles
  rw [List.mem_filter]
  simp only [List.mem_map]
  constructor
  · rintro ⟨⟨p, hp, heq⟩, hpred⟩
    injection heq with h1 h2
    subst h1
    subst h2
    refine ⟨?_, p.2, ?_, rfl⟩
    · intro hnil
      rw [hnil] at hpred
      exact absurd hpred (by simp)
    · exact hp
  · rintro ⟨hne, es, hes, rfl⟩
    refine ⟨⟨(f, es), hes, rfl⟩, ?_⟩
    simp [List.isEmpty_eq_false.mpr hne]

/-- Membership in `broken_urls`: a URL is accumulated exactly when one of the
input files has a surviving classified entry carrying it. -/
lemma mem_brokenUrls_iff (flags : Flags) (codes : List Int)
    (fm : List (String × List FailureEntry)) (u : String) :
    u ∈ brokenUrls flags codes fm ↔
      ∃ f es, (f, es) ∈ fm ∧
        ∃ c ∈ classifyEntries flags codes es, Classified.url c = u := by
  unfold brokenUrls
  rw [List.mem_map]
  constructor
  · rintro ⟨c, hc, rfl⟩
    rw [List.mem_flatMap] at hc
    obtain ⟨p, hp, hcp⟩ := hc
    exact ⟨p.1, p.2, hp, c, hcp, rfl⟩
  · rintro ⟨f, es, hes, c, hc, rfl⟩
    refine ⟨c, ?_, rfl⟩
    rw [List.mem_flatMap]
    exact ⟨(f, es), hes, hc⟩

/-- C5: the broken-URL set is exactly the set of URLs across the entries of
BrokenFileReport; every original URL kept in SuggestionReport belongs to it;
and a file appears in BrokenFileReport iff at least one of its FailureEntry
survives classification. -/
theorem report_invariants (flags : Flags) (codes : List Int)
    (fm : List (String × List FailureEntry))
    (sm : List (String × List SuggestionEntry)) :
    (∀ u : String, u ∈ brokenUrls flags codes fm ↔
      ∃ f ls, (f, ls) ∈ brokenFiles flags codes fm ∧
        ∃ c ∈ ls, Classified.url c = u) ∧
    (∀ (f : String) (ps : List (String × String)),
      (f, ps) ∈ suggestionsForFiles (brokenUrls flags codes fm) sm →
      ∀ pr ∈ ps, pr.1 ∈ brokenUrls flags codes fm) ∧
    (∀ f : String, (∃ ls, (f, ls) ∈ brokenFiles flags codes fm) ↔
      ∃ es, (f, es) ∈ fm ∧ ∃ e ∈ es, classify flags codes e ≠ none) := by
  refine ⟨?_, ?_, ?_⟩
  · intro u
    rw [mem_brokenUrls_iff]
    constructor
    · rintro ⟨f, es, hes, c, hc, rfl⟩
      refine ⟨f, classifyEntries flags codes es, ?_, c, hc, rfl⟩
      rw [mem_brokenFiles_iff]
      exact ⟨List.ne_nil_of_mem hc, es, hes, rfl⟩
    · rintro ⟨f, ls, hmem, c, hc, rfl⟩
      rw [mem_brokenFiles_iff] at hmem
      obtain ⟨hne, es, hes, rfl⟩ := hmem
      exact ⟨f, es, hes, c, hc, rfl⟩
  · intro f ps hmem pr hpr
    unfold suggestionsForFiles at hmem
    rw [List.mem_filter] at hmem
    obtain ⟨hmem, hpred⟩ := hmem
    rw [List.mem_map] at hmem
    obtain ⟨p, hp, heq⟩ := hmem
    injection heq with h1 h2
    subst h1
    subst h2
    rw [List.mem_map] at hpr
    obtain ⟨s, hs, rfl⟩ := hpr
    rw [List.mem_filter] at hs
    exact List.mem_of_elem_eq_true hs.2
  · intro f
    constructor
    · rintro ⟨ls, hmem⟩
      rw [mem_brokenFiles_iff] at hmem
      obtain ⟨hne, es, hes, rfl⟩ := hmem
      obtain ⟨c, hc⟩ := List.exists_mem_of_ne_nil _ hne
      unfold classifyEntries at hc
      rw [List.mem_filterMap] at hc
      obtain ⟨e, he, hce⟩ := hc
      refine ⟨es, hes, e, he, ?_⟩
      rw [hce]
      exact Option.some_ne_none c
    · rintro ⟨es, hes, e, he, hne⟩
      obtain ⟨c, hc⟩ := Option.ne_none_iff_exists.mp hne
      refine ⟨classifyEntries flags codes es, ?_⟩
      rw [mem_brokenFiles_iff]
      refine ⟨?_, es, hes, rfl⟩
      apply List.ne_nil_of_mem (a := c)
      unfold classifyEntries
      rw [List.mem_filterMap]
      exact ⟨e, he, hc.symm⟩

/-- C5 instance: in a run with one broken entry, its URL is accumulated. -/
theorem report_invariants_inst :
    ("http://x" : String) ∈ brokenUrls ⟨false, false⟩ [404]
      [("a.md", [⟨"http://x", ⟨"Not Found", some 404, none⟩⟩])] :=
  ((report_invariants ⟨false, false⟩ [404]
      [("a.md", [⟨"http://x", ⟨"Not Found", some 404, none⟩⟩])] []).1
    "http://x").mpr
    ⟨"a.md", [⟨"http://x", "Not Found", .fromCode 404⟩], by decide,
      ⟨"http://x", "Not Found", .fromCode 404⟩, by decide, rfl⟩

/-- The analyser exits 0 exactly when no file survives classification, and 1
(through `exit(1)` or the uncaught `KeyError`) exactly when one does. -/
lemma analyser_exit_code (flags : Flags) (codes : List Int) (doc : LogDoc) :
    (processExitCode (lychee_log_analyser flags codes doc) = 0 ↔
      brokenFiles flags codes doc.fail_map = []) ∧
    (processExitCode (lychee_log_analyser flags codes doc) = 1 ↔
      brokenFiles flags codes doc.fail_map ≠ []) := by
  unfold lychee_log_analyser
  by_cases hfm : doc.fail_map.isEmpty = true
  · have h0 : doc.fail_map = [] := List.isEmpty_iff.mp hfm
    rw [if_pos hfm, h0]
    constructor
    · simp [processExitCode, brokenFiles]
    · simp [processExitCode, brokenFiles]
  · rw [if_neg hfm]
    by_cases hbf : (brokenFiles flags codes doc.fail_map).isEmpty = true
    · have hb : brokenFiles flags codes doc.fail_map = [] :=
        List.isEmpty_iff.mp hbf
      rw [if_pos hbf]
      constructor
      · simp [processExitCode, hb]
      · simp [processExitCode, hb]
    · have hb : brokenFiles flags codes doc.fail_map ≠ [] := by
        intro h
        exact hbf (by rw [h]; rfl)
      rw [if_neg hbf]
      cases hsm : doc.suggestion_map with
      | none =>
        constructor
        · simp [processExitCode, hb]
        · simp [processExitCode, hb]
      | some sm =>
        by_cases h1 : sm.isEmpty = true
        · simp [processExitCode, hb, h1]
        · by_cases h2 : (suggestionsForFiles
              (brokenUrls flags codes doc.fail_map) sm).isEmpty = true
          · simp [processExitCode, hb, h1, h2]
          · simp [processExitCode, hb, h1, h2]

/-- C6: the process exit status is 2 on a bad error-code token or a missing
log file, 0 exactly when no broken link is found, and 1 exactly when at
least one broken link is found (a run that crashes on an absent
`suggestion_map` after finding broken links also ends with status 1, the
interpreter status for an uncaught exception). -/
theorem exit_code_spec (tokens : List String) (flags : Flags)
    (logExists : Bool) (doc : LogDoc) :
    (resolveErrorCodes tokens = .error () →
      processExitCode (runProgram tokens flags logExists doc) = 2) ∧
    (logExists = false →
      processExitCode (runProgram tokens flags logExists doc) = 2) ∧
    (∀ codes, resolveErrorCodes tokens = .ok codes → logExists = true →
      ((processExitCode (runProgram tokens flags logExists doc) = 0 ↔
          brokenFiles flags codes doc.fail_map = []) ∧
        (processExitCode (runProgram tokens flags logExists doc) = 1 ↔
          brokenFiles flags codes doc.fail_map ≠ []))) := by
  refine ⟨?_, ?_, ?_⟩
  · intro herr
    unfold runProgram
    rw [herr]
    rfl
  · intro hlog
    subst hlog
    unfold runProgram
    cases hp : resolveErrorCodes tokens with
    | error e => rfl
    | ok codes => rfl
  · intro codes hok hlog
    subst hlog
    have hrun : runProgram tokens flags true doc =
        lychee_log_analyser flags codes doc := by
      unfold runProgram
      rw [hok]
      rfl
    rw [hrun]
    exact analyser_exit_code flags codes doc

/-- C6 instance: a clean empty run exits 0, a bad token exits 2. -/
theorem exit_code_spec_inst :
    processExitCode (runProgram ["404"] ⟨false, false⟩ true ⟨[], some []⟩) = 0 ∧
    processExitCode (runProgram ["x"] ⟨false, false⟩ true ⟨[], some []⟩) = 2 :=
  ⟨((exit_code_spec ["404"] ⟨false, false⟩ true ⟨[], some []⟩).2.2 [404] rfl
      rfl).1.mpr rfl,
    (exit_code_spec ["x"] ⟨false, false⟩ true ⟨[], some []⟩).1 rfl⟩

end Lychee
